import Mathlib

/-!
Verification development for the hello-wasm-nitro repository: a host relay
forwarding WASM execution requests over a vsock channel to an enclave
executor that injects secrets into WAT templates, compiles them with
wat2wasm and runs them with wasmtime.

The definitions below are shallow embeddings of the Go source: the enclave
executor (secret coercion, template injection, binary decoding, request
handling) and the host relay (channel lifecycle, forwarding, concurrency).
Strings are modelled as lists of unicode characters, matching the Go range
loops over runes (all characters relevant to the embedded logic are ASCII,
where bytes and runes agree). Machine integers are modelled as Int with
explicit wrapping where the Go code uses fixed-width arithmetic. External
effects (wasmtime, wat2wasm, sockets, the filesystem) are modelled as
explicit oracle parameters or step functions over explicit state.
-/

namespace HelloWasmNitro

/-! ## 32-bit wrapping arithmetic (Go int32 semantics) -/

/-- Wrap an integer into the int32 value range, mirroring Go wrap-around
arithmetic on the int32 type. -/
def wrap32 (z : Int) : Int := (z + 2 ^ 31) % 2 ^ 32 - 2 ^ 31

/-! ## simpleStringHash

Embeds func simpleStringHash of the enclave executor: iterates over the
runes of the string, accumulating hash = hash*31 + int32(c) in int32
wrap-around arithmetic, then negates the accumulator once if it is
negative. The negation itself wraps on int32, so the minimum int32 value
is its own negation. -/

/-- The hash accumulator before the final sign clamp. -/
def rawHash (s : List Char) : Int :=
  s.foldl (fun h c => wrap32 (h * 31 + (c.toNat : Int))) 0

/-- Full simpleStringHash including the final clamp: if hash < 0 then
hash = -hash in int32 arithmetic. -/
def simpleStringHash (s : List Char) : Int :=
  let h := rawHash s
  if h < 0 then wrap32 (-h) else h

/-! ## strconv.ParseInt model (base 10, given bit size)

Go strconv.ParseInt with base 10: an optional leading sign followed by at
least one decimal digit; underscores are not accepted when the base is
given explicitly; the parse fails (non-nil error) when the value is
outside the twos-complement range of the given bit size. The callers in
convertSecretToWASMValue only distinguish err == nil, so the model
returns an Option. -/

def decDigitsAux : List Char → Nat → Option Nat
  | [], acc => some acc
  | c :: rest, acc =>
    if '0' ≤ c ∧ c ≤ '9' then decDigitsAux rest (acc * 10 + (c.toNat - 48))
    else none

/-- Parse a nonempty run of decimal digits. -/
def decDigits : List Char → Option Nat
  | [] => none
  | l => decDigitsAux l 0

/-- Sign handling of ParseInt: an optional single leading plus or minus. -/
def goParseIntSyntax (s : List Char) : Option Int :=
  match s with
  | [] => none
  | c :: rest =>
    if c = '+' then (decDigits rest).map (fun n => (n : Int))
    else if c = '-' then (decDigits rest).map (fun n => -(n : Int))
    else (decDigits s).map (fun n => (n : Int))

/-- strconv.ParseInt(s, 10, bitSize) succeeding with value v, as an Option. -/
def goParseInt (bitSize : Nat) (s : List Char) : Option Int :=
  match goParseIntSyntax s with
  | none => none
  | some v =>
    if -(2 ^ (bitSize - 1)) ≤ v ∧ v < 2 ^ (bitSize - 1) then some v else none

/-- Decimal rendering used by fmt.Sprintf with the d verb on an integer:
minus sign for negatives, no plus sign, no leading zeros. -/
def renderInt (v : Int) : List Char := (toString v).data

/-! ## convertSecretToWASMValue

Embeds func convertSecretToWASMValue. The float branch calls
strconv.ParseFloat and formats with the g verb; floating point is not
shallowly embeddable, so that component is an explicit function parameter
(parseFloatG, returning the formatted literal on success), which none of
the integer-kind claims depend on. Go returning int64(hash) in the i64
branch sign-extends the int32 hash, preserving its integer value, so on
the Int model the i64 literal is rendered from the hash itself. -/

def convertSecretToWASMValue (parseFloatG : List Char → Option (List Char))
    (secret wasmType : List Char) : Except (List Char) (List Char) :=
  if wasmType = ("i32").data then
    match goParseInt 32 secret with
    | some v => .ok (renderInt v)
    | none => .ok (renderInt (simpleStringHash secret))
  else if wasmType = ("i64").data then
    match goParseInt 64 secret with
    | some v => .ok (renderInt v)
    | none => .ok (renderInt (simpleStringHash secret))
  else if wasmType = ("f32").data ∨ wasmType = ("f64").data then
    match parseFloatG secret with
    | some lit => .ok lit
    | none => .error (("cannot convert string secret to float type ").data ++ wasmType)
  else
    .error (("unsupported WASM type: ").data ++ wasmType)

/-! ## The import-declaration pattern of injectSecretsIntoWAT

The Go code compiles the regular expression matching statements of the
shape (with ws denoting one or more whitespace characters)

  (import ws "module" ws "name" ws (global ws $ident ws kind))

where module is any run of non-quote characters, name a nonempty run of
non-quote characters, ident a nonempty run of characters that are neither
whitespace nor a closing parenthesis, and kind one of i32, i64, f32, f64.
The pattern is deterministic (every repetition is delimited by a character
its class excludes), so a direct recursive-descent matcher computes the
same matches as the RE2 engine; FindAllStringSubmatch returns the
leftmost, non-overlapping matches in order, which the character-by-character
scan below reproduces. -/

/-- The whitespace class of RE2 (tab, newline, form feed, carriage return,
space). -/
def isSpaceRE2 (c : Char) : Bool :=
  c = ' ' || c = '\t' || c = '\n' || c = '\x0c' || c = '\r'

/-- Consume an exact literal from the front of the input, returning the
remainder. -/
def dropLit : List Char → List Char → Option (List Char)
  | [], l => some l
  | _ :: _, [] => none
  | c :: cs, x :: xs => if x = c then dropLit cs xs else none

/-- One capture of the import pattern: the whole matched text and the
three capture groups (secret name, global identifier, numeric kind). -/
structure ImportMatch where
  full : List Char
  secretName : List Char
  globalName : List Char
  wasmType : List Char
deriving DecidableEq, Repr

/-- Match the alternation of the four numeric kind tokens. -/
def kindTok (l : List Char) : Option (List Char × List Char) :=
  match dropLit (("i32").data) l with
  | some r => some ((("i32").data), r)
  | none =>
    match dropLit (("i64").data) l with
    | some r => some ((("i64").data), r)
    | none =>
      match dropLit (("f32").data) l with
      | some r => some ((("f32").data), r)
      | none =>
        match dropLit (("f64").data) l with
        | some r => some ((("f64").data), r)
        | none => none

/-- Anchored match of the import pattern at the head of the input,
returning the match and the remaining input after it. -/
def matchImportAt (l : List Char) : Option (ImportMatch × List Char) := do
  let r1 ← dropLit (("(import").data) l
  let (w1, r2) := r1.span isSpaceRE2
  if w1.isEmpty then failure else
  let r3 ← dropLit (("\"").data) r2
  let (modName, r4a) := r3.span (fun c => c != '"')
  let r4 ← dropLit (("\"").data) r4a
  let (w2, r5) := r4.span isSpaceRE2
  if w2.isEmpty then failure else
  let r6 ← dropLit (("\"").data) r5
  let (secName, r7a) := r6.span (fun c => c != '"')
  if secName.isEmpty then failure else
  let r7 ← dropLit (("\"").data) r7a
  let (w3, r8) := r7.span isSpaceRE2
  if w3.isEmpty then failure else
  let r9 ← dropLit (("(global").data) r8
  let (w4, r10) := r9.span isSpaceRE2
  if w4.isEmpty then failure else
  let r11 ← dropLit (("$").data) r10
  let (ident, r12) := r11.span (fun c => !(isSpaceRE2 c) && c != ')')
  if ident.isEmpty then failure else
  let (w5, r13) := r12.span isSpaceRE2
  if w5.isEmpty then failure else
  let (kind, r14) ← kindTok r13
  let r15 ← dropLit (("))").data) r14
  let full := (("(import").data) ++ w1 ++ (("\"").data) ++ modName ++ (("\"").data) ++ w2
      ++ (("\"").data) ++ secName ++ (("\"").data) ++ w3 ++ (("(global").data) ++ w4
      ++ (("$").data) ++ ident ++ w5 ++ kind ++ (("))").data)
  return ({ full := full, secretName := secName, globalName := ident, wasmType := kind }, r15)

/-- Left-to-right scan collecting all non-overlapping matches, continuing
after the end of each match. Fuel is the input length; every step consumes
at least one character, so the fuel never runs out. -/
def findAllAux (fuel : Nat) (l : List Char) : List ImportMatch :=
  match fuel with
  | 0 => []
  | fuel + 1 =>
    match matchImportAt l with
    | some (m, rest) => m :: findAllAux fuel rest
    | none =>
      match l with
      | [] => []
      | _ :: tl => findAllAux fuel tl

/-- FindAllStringSubmatch of the import pattern: leftmost, non-overlapping
matches in order. -/
def findAllMatches (l : List Char) : List ImportMatch := findAllAux l.length l

/-! ## strings.Replace with count 1 and strings.Contains -/

def replaceFirstAux (pat rep : List Char) : List Char → List Char
  | [] => []
  | c :: rest =>
    if pat.isPrefixOf (c :: rest) then rep ++ (c :: rest).drop pat.length
    else c :: replaceFirstAux pat rep rest

/-- strings.Replace(s, pat, rep, 1): replace the first occurrence of pat
in s by rep; with an empty pat, Go inserts rep before the string. -/
def replaceFirst (s pat rep : List Char) : List Char :=
  if pat.isEmpty then rep ++ s
  else replaceFirstAux pat rep s

/-- strings.Contains as a recursive scan. -/
def containsSubstr (s pat : List Char) : Bool :=
  match s with
  | [] => pat.isEmpty
  | c :: rest => pat.isPrefixOf (c :: rest) || containsSubstr rest pat

/-! ## injectSecretsIntoWAT

Embeds func injectSecretsIntoWAT: find all import-pattern matches of the
source, then for each match in order, if the secrets map has an entry for
its secret name, coerce the entry and replace the first remaining
occurrence of the exact matched substring by the inline global definition;
a match without an entry is skipped; a coercion failure aborts with an
error. The secrets map (unique keys) is modelled as an association
list. -/

def lookupSecret (secrets : List (List Char × List Char)) (name : List Char) :
    Option (List Char) :=
  match secrets with
  | [] => none
  | (k, v) :: rest => if k = name then some v else lookupSecret rest name

/-- The replacement text, from fmt.Sprintf on the pattern
(global $name kind (kind.const value)). -/
def globalDefFor (globalName wasmType lit : List Char) : List Char :=
  (("(global $").data) ++ globalName ++ ((" ").data) ++ wasmType ++ ((" (").data)
    ++ wasmType ++ ((".const ").data) ++ lit ++ (("))").data)

/-- The body of the processing loop for one match. -/
def injectStep (parseFloatG : List Char → Option (List Char))
    (secrets : List (List Char × List Char)) (result : List Char)
    (m : ImportMatch) : Except (List Char) (List Char) :=
  match lookupSecret secrets m.secretName with
  | some secretValue =>
    match convertSecretToWASMValue parseFloatG secretValue m.wasmType with
    | .ok v =>
      .ok (replaceFirst result m.full (globalDefFor m.globalName m.wasmType v))
    | .error e =>
      .error ((("failed to convert secret ").data) ++ m.secretName ++ ((": ").data) ++ e)
  | none => .ok result

def injectSecretsIntoWAT (parseFloatG : List Char → Option (List Char))
    (watCode : List Char) (secrets : List (List Char × List Char)) :
    Except (List Char) (List Char) :=
  (findAllMatches watCode).foldlM (injectStep parseFloatG secrets) watCode

/-! ## isWATText and base64DecodeWASM -/

/-- Detect WAT text: nonempty, starts with an opening parenthesis, and
contains the substring module or the substring func. -/
def isWATText (input : List Char) : Bool :=
  match input with
  | [] => false
  | c :: _ =>
    (if c = '(' then
      containsSubstr input (("module").data) || containsSubstr input (("func").data)
    else false)

/-- Alphabet of standard base64. -/
def b64Index (c : Char) : Option Nat :=
  if 'A' ≤ c ∧ c ≤ 'Z' then some (c.toNat - 65)
  else if 'a' ≤ c ∧ c ≤ 'z' then some (c.toNat - 97 + 26)
  else if '0' ≤ c ∧ c ≤ '9' then some (c.toNat - 48 + 52)
  else if c = '+' then some 62
  else if c = '/' then some 63
  else none

/-- Go base64 decoding ignores carriage returns and newlines wherever they
appear. -/
def b64Filtered (s : List Char) : List Char := s.filter (fun c => c != '\r' && c != '\n')

/-- Decode 4-character quanta of standard (padded) base64; the error value
carries the approximate offset of the offending input, standing for the
CorruptInputError of the Go library. Padding is accepted only at the end
of the input and a trailing incomplete quantum is an error. -/
def b64Aux : List Char → Nat → Except Nat (List Nat)
  | [], _ => .ok []
  | c1 :: c2 :: c3 :: c4 :: rest, pos =>
    match b64Index c1, b64Index c2 with
    | some v1, some v2 =>
      if c3 = '=' then
        if c4 = '=' ∧ rest = [] then .ok [v1 * 4 + v2 / 16]
        else .error (pos + 2)
      else
        match b64Index c3 with
        | some v3 =>
          if c4 = '=' then
            if rest = [] then .ok [v1 * 4 + v2 / 16, (v2 % 16) * 16 + v3 / 4]
            else .error (pos + 3)
          else
            match b64Index c4 with
            | some v4 =>
              Except.map
                (fun tail => (v1 * 4 + v2 / 16) :: ((v2 % 16) * 16 + v3 / 4)
                  :: ((v3 % 4) * 64 + v4) :: tail)
                (b64Aux rest (pos + 4))
            | none => .error (pos + 3)
        | none => .error (pos + 2)
    | none, _ => .error pos
    | _, none => .error (pos + 1)
  | _, pos => .error pos

/-- base64.StdEncoding.DecodeString on the model. -/
def goBase64Decode (s : List Char) : Except Nat (List Nat) := b64Aux (b64Filtered s) 0

/-- Value of one hexadecimal digit, as accepted by strconv.ParseUint with
base 16. -/
def hexDigitVal (c : Char) : Option Nat :=
  if '0' ≤ c ∧ c ≤ '9' then some (c.toNat - 48)
  else if 'a' ≤ c ∧ c ≤ 'f' then some (c.toNat - 97 + 10)
  else if 'A' ≤ c ∧ c ≤ 'F' then some (c.toNat - 65 + 10)
  else none

/-- The hex fallback loop: decode consecutive 2-character pairs with
strconv.ParseUint(pair, 16, 8); any bad pair aborts the fallback. -/
def hexDecodePairs : List Char → Option (List Nat)
  | [] => some []
  | c1 :: c2 :: rest =>
    match hexDigitVal c1, hexDigitVal c2 with
    | some h1, some h2 => (hexDecodePairs rest).map (fun tail => (h1 * 16 + h2) :: tail)
    | _, _ => none
  | [_] => none

/-- strings.ReplaceAll(s, one-character pattern, empty replacement). -/
def removeAllChar (c : Char) (s : List Char) : List Char := s.filter (fun x => x != c)

/-- The cleaning phase of base64DecodeWASM: remove all spaces, then all
newlines, then all tabs. -/
def cleanedOf (s : List Char) : List Char :=
  removeAllChar '\t' (removeAllChar '\n' (removeAllChar ' ' s))

/-- The error reported by base64DecodeWASM is always the base64 error, a
CorruptInputError carrying an offset. -/
inductive WasmDecodeError where
  | base64Corrupt (off : Nat)
deriving DecidableEq, Repr

/-- Rendering of a CorruptInputError by the v verb of fmt. -/
def renderDecodeError : WasmDecodeError → List Char
  | .base64Corrupt off => (("illegal base64 data at input byte ").data) ++ renderInt (off : Int)

/-- Embeds func base64DecodeWASM: clean whitespace, try base64, and on
base64 failure try the hex fallback only for even-length cleaned input,
propagating the original base64 error when the fallback is not attempted
or aborts. -/
def base64DecodeWASM (encoded : List Char) : Except WasmDecodeError (List Nat) :=
  let cl := cleanedOf encoded
  match goBase64Decode cl with
  | .ok decoded => .ok decoded
  | .error e =>
    if cl.length % 2 = 0 then
      match hexDecodePairs cl with
      | some hd => .ok hd
      | none => .error (.base64Corrupt e)
    else .error (.base64Corrupt e)

/-! ## ExecuteWASM and the connection loop of the enclave executor

The wasmtime engine and the wat2wasm subprocess are external services;
they are modelled as an oracle structure whose fields give the outcome of
each call. Module, instance and function handles are opaque naturals.
The Go error messages wrap the function name in single quotation marks,
omitted in the modelled message text. -/

structure WASMRequest where
  wasmCode : List Char
  functionName : List Char
  args : List Int
  secrets : List (List Char × List Char)
deriving DecidableEq, Repr

structure WASMResponse where
  result : Int
  error : List Char
deriving DecidableEq, Repr

/-- What GetExport finds under a name. -/
inductive ExportView where
  | notFunc
  | funcHandle (h : Nat)
deriving DecidableEq, Repr

/-- Outcome of Func.Call: a single int32 value, or a value of some other
dynamic type (whose type name the v verb would print). -/
inductive CallOutcome where
  | i32 (v : Int)
  | otherType (tyName : List Char)
deriving DecidableEq, Repr

structure ExecEnv where
  parseFloatG : List Char → Option (List Char)
  wat2wasm : List Char → Except (List Char) (List Nat)
  newModule : List Nat → Except (List Char) Nat
  newInstance : Nat → Except (List Char) Nat
  getExport : Nat → List Char → Option ExportView
  callFunc : Nat → List Int → Except (List Char) CallOutcome

/-- The stages of ExecuteWASM after the module bytes are obtained:
module creation, instantiation, export lookup, call, result conversion.
Every failure path returns the pair of result 0 and a non-nil error. -/
def moduleStage (env : ExecEnv) (wasmBytes : List Nat) (functionName : List Char)
    (args : List Int) : Int × Option (List Char) :=
  match env.newModule wasmBytes with
  | .error e => (0, some ((("failed to create WASM module: ").data) ++ e))
  | .ok moduleRef =>
    match env.newInstance moduleRef with
    | .error e => (0, some ((("failed to create WASM instance: ").data) ++ e))
    | .ok inst =>
      match env.getExport inst functionName with
      | none =>
        (0, some ((("function ").data) ++ functionName
          ++ ((" not found in WASM module").data)))
      | some .notFunc =>
        (0, some (functionName ++ ((" is not a function").data)))
      | some (.funcHandle f) =>
        match env.callFunc f args with
        | .error e => (0, some ((("WASM function call failed: ").data) ++ e))
        | .ok (.i32 v) => (v, none)
        | .ok (.otherType ty) =>
          (0, some ((("unexpected return type from WASM function: ").data) ++ ty))

/-- Embeds func ExecuteWASM: route WAT text through injection (only when
secrets are present) and compilation, route other input through
base64DecodeWASM, then run the module stages. -/
def ExecuteWASM (env : ExecEnv) (wasmCode functionName : List Char) (args : List Int)
    (secrets : List (List Char × List Char)) : Int × Option (List Char) :=
  if isWATText wasmCode then
    match
      (if secrets.isEmpty then .ok wasmCode
       else injectSecretsIntoWAT env.parseFloatG wasmCode secrets) with
    | .error e => (0, some ((("failed to inject secrets: ").data) ++ e))
    | .ok processedWAT =>
      match env.wat2wasm processedWAT with
      | .error e => (0, some ((("failed to compile WAT to WASM: ").data) ++ e))
      | .ok wasmBytes => moduleStage env wasmBytes functionName args
  else
    match base64DecodeWASM wasmCode with
    | .error e =>
      (0, some ((("failed to decode WASM bytecode: ").data) ++ renderDecodeError e))
    | .ok wasmBytes => moduleStage env wasmBytes functionName args

/-- The response object built by the connection loop from the pair
returned by ExecuteWASM: the result as returned, and the empty error
string on success or the prefixed message on failure. -/
def responseFor (outcome : Int × Option (List Char)) : WASMResponse :=
  { result := outcome.1
    error :=
      match outcome.2 with
      | none => []
      | some e => (("WASM execution failed: ").data) ++ e }

/-- Embeds func handleConnection of the enclave executor: repeatedly decode
one request, execute it, build the response and encode exactly one
response before decoding the next request. The decodable requests of the
connection are given as a list (decoding then fails and the loop
returns); encodeOk i tells whether the i-th response encode succeeds (on
failure the loop returns without decoding further requests). The result
pairs every decoded request with the single response encoded for it. -/
def handleLoop (env : ExecEnv) (encodeOk : Nat → Bool) :
    Nat → List WASMRequest → List (WASMRequest × WASMResponse)
  | _, [] => []
  | i, req :: rest =>
    let resp : WASMResponse :=
      responseFor (ExecuteWASM env req.wasmCode req.functionName req.args req.secrets)
    (req, resp) :: (if encodeOk i then handleLoop env encodeOk (i + 1) rest else [])

def handleConnection (env : ExecEnv) (encodeOk : Nat → Bool)
    (reqs : List WASMRequest) : List (WASMRequest × WASMResponse) :=
  handleLoop env encodeOk 0 reqs

/-! ## compileWATToWASM temporary paths

Embeds the path computation of func compileWATToWASM: tmpDir is the fixed
/tmp, the source path is tmpDir + /temp.wat and the output path is
tmpDir + /temp.wasm. The computation depends neither on the WAT text nor
on any per-invocation datum, which the unused parameters record. -/

def compileTmpDir : List Char := ("/tmp").data

def compileWatFile : List Char := compileTmpDir ++ ("/temp.wat").data

def compileWasmFile : List Char := compileTmpDir ++ ("/temp.wasm").data

/-- The pair of temporary paths used by one invocation of
compileWATToWASM, as a function of the invocation (an identifying index)
and the WAT text it compiles. -/
def compileTempPaths (_invocation : Nat) (_watCode : List Char) :
    List Char × List Char := (compileWatFile, compileWasmFile)

/-! ## The host service: channel lifecycle

Embeds HostService of the host relay: an enclave connection handle (nil
modelled as none) and a connected flag. connectToEnclave dials only when
the flag is unset; forwardToEnclave encodes one request and decodes one
response on the held connection and returns the state unchanged on every
path, including the two I/O failure paths, because the Go code never
clears the flag or the handle after an error. The dial and I/O outcomes
come from the environment. -/

structure HostState where
  enclaveConn : Option Nat
  enclaveConnected : Bool
deriving DecidableEq, Repr

inductive DialOutcome where
  | success (conn : Nat)
  | failure (msg : List Char)
deriving DecidableEq, Repr

inductive ForwardOutcome where
  | encodeFailure (msg : List Char)
  | decodeFailure (msg : List Char)
  | exchange (resp : WASMResponse)
deriving DecidableEq, Repr

def connectToEnclave (s : HostState) (dial : DialOutcome) :
    Except (List Char) Unit × HostState :=
  if s.enclaveConnected then (.ok (), s)
  else
    match dial with
    | .success conn => (.ok (), { enclaveConn := some conn, enclaveConnected := true })
    | .failure msg => (.error ((("failed to connect to enclave: ").data) ++ msg), s)

def forwardToEnclave (s : HostState) (outc : ForwardOutcome) :
    Except (List Char) WASMResponse × HostState :=
  if s.enclaveConnected = false ∨ s.enclaveConn = none then
    (.error (("not connected to enclave").data), s)
  else
    match outc with
    | .encodeFailure msg =>
      (.error ((("failed to send request to enclave: ").data) ++ msg), s)
    | .decodeFailure msg =>
      (.error ((("failed to decode WASM response from enclave: ").data) ++ msg), s)
    | .exchange resp => (.ok resp, s)

/-- One iteration of the request loop of handleClientConnection: connect
only when the connected flag is unset, then forward; on a connect or
forward error a synthesized error response with result 0 goes back to the
client. The client-side encode does not affect the channel state and is
omitted. -/
def handleOneClientRequest (s : HostState) (dial : DialOutcome)
    (outc : ForwardOutcome) : WASMResponse × HostState :=
  let step1 : Option (List Char) × HostState :=
    if s.enclaveConnected = false then
      match connectToEnclave s dial with
      | (.error e, s2) => (some e, s2)
      | (.ok _, s2) => (none, s2)
    else (none, s)
  match step1 with
  | (some e, s1) =>
    ({ result := 0, error := (("Could not connect to enclave: ").data) ++ e }, s1)
  | (none, s1) =>
    match forwardToEnclave s1 outc with
    | (.error e, s2) =>
      ({ result := 0, error := (("Enclave communication error: ").data) ++ e }, s2)
    | (.ok resp, s2) => (resp, s2)

/-! ## The shared enclave channel under concurrent client tasks

Two client connection tasks share one HostService and hence one enclave
channel. forwardToEnclave takes only the read half of the RWMutex
(h.mu.RLock), which any number of tasks hold simultaneously; only
connectToEnclave takes the write half. The step function below models
the byte-stream channel at message granularity: requests encoded by
either task queue up in order on the wire; the enclave connection handler
serves them one at a time in order; each response queues up on the return
wire; a decoding task takes the head of the return wire, whichever
request it belongs to, exactly as two json.Decoder instances draining one
shared connection do. Request payloads are naturals; the function from a
request to the enclave response computed for it is a parameter. -/

inductive TaskPhase where
  | idle
  | inForward
  | sent
  | got (r : WASMResponse)
deriving DecidableEq, Repr

structure RelaySys where
  readers : Nat
  phase1 : TaskPhase
  phase2 : TaskPhase
  req1 : Nat
  req2 : Nat
  wireReqs : List Nat
  wireResps : List WASMResponse
deriving DecidableEq, Repr

inductive RelayEvent where
  | rlock1
  | rlock2
  | encode1
  | encode2
  | enclaveServe
  | decode1
  | decode2
deriving DecidableEq, Repr

/-- One interleaving step. Lock acquisition models h.mu.RLock: it is
shared, so it succeeds for any number of concurrent readers (no writer is
in flight in the scenarios considered). Events whose preconditions do not
hold leave the state unchanged. -/
def relayStep (respOf : Nat → WASMResponse) (s : RelaySys) : RelayEvent → RelaySys
  | .rlock1 =>
    if s.phase1 = .idle then { s with readers := s.readers + 1, phase1 := .inForward } else s
  | .rlock2 =>
    if s.phase2 = .idle then { s with readers := s.readers + 1, phase2 := .inForward } else s
  | .encode1 =>
    if s.phase1 = .inForward then { s with phase1 := .sent, wireReqs := s.wireReqs ++ [s.req1] }
    else s
  | .encode2 =>
    if s.phase2 = .inForward then { s with phase2 := .sent, wireReqs := s.wireReqs ++ [s.req2] }
    else s
  | .enclaveServe =>
    match s.wireReqs with
    | [] => s
    | r :: rest => { s with wireReqs := rest, wireResps := s.wireResps ++ [respOf r] }
  | .decode1 =>
    if s.phase1 = .sent then
      match s.wireResps with
      | [] => s
      | r :: rest =>
        { s with phase1 := .got r, wireResps := rest, readers := s.readers - 1 }
    else s
  | .decode2 =>
    if s.phase2 = .sent then
      match s.wireResps with
      | [] => s
      | r :: rest =>
        { s with phase2 := .got r, wireResps := rest, readers := s.readers - 1 }
    else s

def relayRun (respOf : Nat → WASMResponse) (init : RelaySys)
    (events : List RelayEvent) : RelaySys :=
  events.foldl (relayStep respOf) init

/-- Decidable equality on Except, for evaluating the model on concrete
inputs. -/
instance {ε α : Type} [DecidableEq ε] [DecidableEq α] : DecidableEq (Except ε α) :=
  fun x y =>
    match x, y with
    | .ok a, .ok b => if h : a = b then isTrue (by rw [h]) else isFalse (by simp [h])
    | .error a, .error b => if h : a = b then isTrue (by rw [h]) else isFalse (by simp [h])
    | .ok _, .error _ => isFalse (by simp)
    | .error _, .ok _ => isFalse (by simp)

/-! ## Concrete inputs used to evaluate the model

The remaining definitions are concrete data: states, schedules, requests,
oracles and template sources on which the theorems below evaluate the
embedded code. -/

/-- An enclave that echoes the request payload into the result field, so
that distinct requests have distinct responses. -/
def echoResp (n : Nat) : WASMResponse := { result := (n : Int), error := [] }

/-- Two client tasks with distinct requests, idle, nothing on the wire. -/
def relayInit : RelaySys :=
  { readers := 0, phase1 := .idle, phase2 := .idle, req1 := 10, req2 := 20
    wireReqs := [], wireResps := [] }

/-- An interleaving permitted by the shared read lock: both tasks enter
forwardToEnclave, both encode, the enclave serves the first request, and
task 2 decodes first. -/
def relayTrace : List RelayEvent :=
  [.rlock1, .rlock2, .encode1, .encode2, .enclaveServe, .decode2]

/-- A host service holding an established enclave connection. -/
def hostConnectedState : HostState := { enclaveConn := some 7, enclaveConnected := true }

/-- An import declaration for secret X. -/
def cexM : List Char := ("(import \"env\" \"X\" (global $X i32))").data

/-- The inline global that injection substitutes for cexM when secret X
has value 5. -/
def cexRepX : List Char := ("(global $X i32 (i32.const 5))").data

/-- An import declaration for secret N whose module string spells out
cexRepX. -/
def cexT : List Char :=
  ("(import \"").data ++ cexRepX ++ ("\" \"N\" (global $N i32))").data

/-- A source containing the declaration cexT followed by text that turns
into a second copy of cexT once cexM inside it is substituted. -/
def cexSource : List Char :=
  cexT ++ (" ").data ++ ("(import \"").data ++ cexM ++ ("\" \"N\" (global $N i32))").data

def cexSecrets : List (List Char × List Char) :=
  [((("N").data), (("7").data)), ((("X").data), (("5").data))]

/-- The inline global substituted for cexT when secret N has value 7. -/
def cexRepT : List Char := ("(global $N i32 (i32.const 7))").data

/-- The injection output on cexSource: the consumed declaration cexT is
present in it verbatim. -/
def cexOut : List Char := cexRepT ++ (" ").data ++ cexT

/-- A well-formed match record of an import declaration for secret D. -/
def wM6 : ImportMatch :=
  { full := ("(import \"env\" \"D\" (global $D i32))").data
    secretName := ("D").data, globalName := ("D").data, wasmType := ("i32").data }

/-- Two identical copies of the declaration of wM6 in a row. -/
def wCur6 : List Char := wM6.full ++ wM6.full

def wSecrets6 : List (List Char × List Char) := [((("D").data), (("5").data))]

/-- The replacement text for wM6 with literal 5. -/
def wRep6 : List Char := globalDefFor wM6.globalName wM6.wasmType (("5").data)

/-- A source whose single import declaration names secret K, which the
secrets mapping does not provide. -/
def w7Wat : List Char := ("(module (import \"env\" \"K\" (global $K i32)))").data

/-- A secrets mapping whose single entry is referenced by no declaration. -/
def w7Secrets : List (List Char × List Char) := [((("UNUSED").data), (("x").data))]

/-- The match record produced for the declaration of w7Wat. -/
def w7Match : ImportMatch :=
  { full := ("(import \"env\" \"K\" (global $K i32))").data
    secretName := ("K").data, globalName := ("K").data, wasmType := ("i32").data }

/-- An execution environment whose engine succeeds at every stage but
exports nothing under any name. -/
def w8Env : ExecEnv :=
  { parseFloatG := fun _ => none
    wat2wasm := fun _ => .ok []
    newModule := fun _ => .ok 0
    newInstance := fun _ => .ok 0
    getExport := fun _ _ => none
    callFunc := fun _ _ => .ok (.i32 0) }

/-- A request for a function absent from the module. -/
def w8Req : WASMRequest :=
  { wasmCode := ("(module)").data, functionName := ("missing_fn").data
    args := [], secrets := [] }

/-- The unique response the connection loop encodes for w8Req under
w8Env. -/
def w8Resp : WASMResponse :=
  { result := 0
    error := ("WASM execution failed: function missing_fn not found in WASM module").data }

/-- Whitespace-separated hex input: not WAT, not valid base64. -/
def w10Enc : List Char := ("68 65 6c 6c 6f").data

/-- An import declaration whose secret name is the one-space string and
whose module string ends in an unterminated copy of the pattern opening,
so that a pattern instance begins inside it (at offset 9). -/
def c7M : List Char := ("(import \"(import \" \" \" (global $K i32))").data

/-- Text following c7M that completes the overlapping pattern instance. -/
def c7B : List Char := ("x\" (global $Z i32))").data

/-- The declaration for global Z: its text equals the tail of c7M from
offset 9 followed by c7B, so it occurs both at its own match position and
overlapping c7M. -/
def c7T : List Char := ("(import \" \" \" (global $K i32))x\" (global $Z i32))").data

/-- A source whose matches are exactly c7M (name: one space, not in the
secrets mapping) and c7T (consumed), with the first occurrence of the
text of c7T lying inside c7M ++ c7B. -/
def c7S : List Char := c7M ++ c7B ++ (" ").data ++ c7T

def c7Secrets : List (List Char × List Char) :=
  [(((" (global $K i32))x").data), (("9").data))]

/-- The injection output on c7S: the replacement for c7T hit the earlier,
overlapping occurrence of its text and destroyed the tail of the
non-consumed declaration c7M. -/
def c7Out : List Char :=
  ("(import \"").data ++ ("(global $Z i32 (i32.const 9))").data ++ (" ").data ++ c7T

/-! ## Helper lemmas -/

theorem wrap32_lb (z : Int) : -(2 ^ 31) ≤ wrap32 z := by
  have h := Int.emod_nonneg (z + 2 ^ 31) (by norm_num : (2 ^ 32 : Int) ≠ 0)
  unfold wrap32; omega

theorem wrap32_ub (z : Int) : wrap32 z < 2 ^ 31 := by
  have h := Int.emod_lt_of_pos (z + 2 ^ 31) (by norm_num : (0 : Int) < 2 ^ 32)
  unfold wrap32; omega

theorem wrap32_eq_of_range (z : Int) (h1 : -(2 ^ 31) ≤ z) (h2 : z < 2 ^ 31) :
    wrap32 z = z := by
  unfold wrap32
  rw [Int.emod_eq_of_lt (by omega) (by omega)]
  omega

theorem rawHash_lb (s : List Char) : -(2 ^ 31) ≤ rawHash s := by
  unfold rawHash
  induction s using List.reverseRecOn with
  | nil => norm_num
  | append_singleton xs x _ => rw [List.foldl_append]; exact wrap32_lb _

theorem rawHash_ub (s : List Char) : rawHash s < 2 ^ 31 := by
  unfold rawHash
  induction s using List.reverseRecOn with
  | nil => norm_num
  | append_singleton xs x _ => rw [List.foldl_append]; exact wrap32_ub _

theorem simpleStringHash_nonneg_of_ne_min (s : List Char)
    (h : rawHash s ≠ -(2 ^ 31)) : 0 ≤ simpleStringHash s := by
  unfold simpleStringHash
  have hlb := rawHash_lb s
  by_cases hneg : rawHash s < 0
  · simp only [hneg, if_true]
    rw [wrap32_eq_of_range (-(rawHash s)) (by omega) (by omega)]
    omega
  · simp only [hneg, if_false]
    omega

theorem simpleStringHash_lb (s : List Char) : -(2 ^ 31) ≤ simpleStringHash s := by
  unfold simpleStringHash
  have hlb := rawHash_lb s
  by_cases hneg : rawHash s < 0
  · simp only [hneg, if_true]; exact wrap32_lb _
  · simp only [hneg, if_false]; omega

theorem simpleStringHash_ub (s : List Char) : simpleStringHash s < 2 ^ 31 := by
  unfold simpleStringHash
  have hub := rawHash_ub s
  by_cases hneg : rawHash s < 0
  · simp only [hneg, if_true]; exact wrap32_ub _
  · simp only [hneg, if_false]; omega

/-- If a string does not parse as a 64-bit decimal integer then it does
not parse as a 32-bit decimal integer either (same syntax, smaller
range). -/
theorem goParseInt64_none_32 (s : List Char) (h : goParseInt 64 s = none) :
    goParseInt 32 s = none := by
  unfold goParseInt at h ⊢
  cases hs : goParseIntSyntax s with
  | none => rfl
  | some v =>
    rw [hs] at h
    dsimp only at h ⊢
    have hp : ((2 : Int) ^ 31) ≤ 2 ^ 63 := by norm_num
    split_ifs at h with h64
    simp only [show (64 : Nat) - 1 = 63 from rfl] at h64
    simp only [show (32 : Nat) - 1 = 31 from rfl]
    rw [if_neg (by omega)]

/-! ## Claim C2: i32 coercion of non-numeric secrets -/

set_option maxRecDepth 1000000

/-- Claim C2 counterexample: the secret string polygenelubricants does not
parse as a base-10 integer, its 31-shifted polynomial hash accumulator is
the minimum int32 value, whose clamping negation wraps to itself, so the
i32 literal produced for it is the negative string -2147483648. This
refutes the part of claim C2 stating that the resulting literal is
non-negative for every non-numeric input. -/
theorem i32_hash_nonneg_cex :
    goParseInt 32 (("polygenelubricants").data) = none ∧
    convertSecretToWASMValue (fun _ => none) (("polygenelubricants").data) (("i32").data)
      = .ok (("-2147483648").data) ∧
    simpleStringHash (("polygenelubricants").data) < 0 :=
  ⟨by decide, by rfl, by decide⟩

/-- Claim C2, amended: for every secret string that does not parse as a
base-10 integer in the i32 range, coercion to kind i32 produces the
decimal rendering of the 31-shifted polynomial hash (wrapping 32-bit
signed arithmetic, negated once if the final accumulator is negative),
and the literal is non-negative unless the accumulator is exactly
-2^31, in which case the negation wraps and the literal is negative. -/
theorem i32_hash_literal_amended (parseFloatG : List Char → Option (List Char))
    (s : List Char) (h : goParseInt 32 s = none) :
    convertSecretToWASMValue parseFloatG s (("i32").data)
      = .ok (renderInt (simpleStringHash s)) ∧
    (rawHash s ≠ -(2 ^ 31) → 0 ≤ simpleStringHash s) := by
  constructor
  · unfold convertSecretToWASMValue
    rw [if_pos rfl, h]
  · exact simpleStringHash_nonneg_of_ne_min s

/-- Witness for the amended claim C2 at the non-numeric secret hello. -/
theorem i32_hash_literal_amended_witness :
    convertSecretToWASMValue (fun _ => none) (("hello").data) (("i32").data)
      = .ok (renderInt (simpleStringHash (("hello").data))) ∧
    0 ≤ simpleStringHash (("hello").data) := by
  have h := i32_hash_literal_amended (fun _ => none) (("hello").data) (by decide)
  exact ⟨h.1, h.2 (by decide)⟩

/-! ## Claim C5: numeric secrets used verbatim -/

/-- Claim C5 counterexample: the secret string 007 parses as a base-10
integer in the i32 range, yet the literal returned is its re-rendering 7,
not the secret string character for character. -/
theorem numeric_secret_verbatim_cex :
    goParseInt 32 (("007").data) = some 7 ∧
    convertSecretToWASMValue (fun _ => none) (("007").data) (("i32").data)
      = .ok (("7").data) ∧
    ("7").data ≠ ("007").data :=
  ⟨by decide, by rfl, by decide⟩

/-- Claim C5, amended: for every secret string that parses as a base-10
integer within the target kind range (32-bit for i32, 64-bit for i64),
coercion returns the decimal rendering of the parsed value (the d verb of
fmt), which coincides with the secret character for character exactly
when the secret is already in canonical decimal form (no plus sign, no
leading zeros). -/
theorem numeric_secret_rendering_amended (parseFloatG : List Char → Option (List Char))
    (s : List Char) (v : Int) :
    (goParseInt 32 s = some v →
      convertSecretToWASMValue parseFloatG s (("i32").data) = .ok (renderInt v) ∧
      (s = renderInt v →
        convertSecretToWASMValue parseFloatG s (("i32").data) = .ok s)) ∧
    (goParseInt 64 s = some v →
      convertSecretToWASMValue parseFloatG s (("i64").data) = .ok (renderInt v) ∧
      (s = renderInt v →
        convertSecretToWASMValue parseFloatG s (("i64").data) = .ok s)) := by
  constructor
  · intro h
    have he : convertSecretToWASMValue parseFloatG s (("i32").data) = .ok (renderInt v) := by
      unfold convertSecretToWASMValue
      rw [if_pos rfl, h]
    exact ⟨he, fun hs => by rw [he, hs]⟩
  · intro h
    have he : convertSecretToWASMValue parseFloatG s (("i64").data) = .ok (renderInt v) := by
      unfold convertSecretToWASMValue
      rw [if_neg (by decide), if_pos rfl, h]
    exact ⟨he, fun hs => by rw [he, hs]⟩

/-- Witness for the amended claim C5 at the canonical numeric secret 42. -/
theorem numeric_secret_rendering_amended_witness :
    convertSecretToWASMValue (fun _ => none) (("42").data) (("i32").data)
      = .ok (("42").data) ∧
    convertSecretToWASMValue (fun _ => none) (("42").data) (("i64").data)
      = .ok (("42").data) := by
  have h := numeric_secret_rendering_amended (fun _ => none) (("42").data) 42
  exact ⟨(h.1 (by decide)).2 (by decide), (h.2 (by decide)).2 (by decide)⟩

/-! ## Claim C9: i64 coercion of non-numeric secrets -/

/-- Claim C9: for every secret string that does not parse as a base-10
64-bit integer, coercion to kind i64 produces the decimal rendering of
the 32-bit polynomial hash sign-extended to 64 bits (value preserved), so
the literal value lies within the 32-bit signed range, the string also
fails to parse as 32-bit, and the i64 literal equals the i32 literal for
the same secret. -/
theorem i64_hash_sign_extended (parseFloatG : List Char → Option (List Char))
    (s : List Char) (h : goParseInt 64 s = none) :
    convertSecretToWASMValue parseFloatG s (("i64").data)
      = .ok (renderInt (simpleStringHash s)) ∧
    -(2 ^ 31) ≤ simpleStringHash s ∧ simpleStringHash s < 2 ^ 31 ∧
    goParseInt 32 s = none ∧
    convertSecretToWASMValue parseFloatG s (("i64").data)
      = convertSecretToWASMValue parseFloatG s (("i32").data) := by
  have h32 := goParseInt64_none_32 s h
  have he64 : convertSecretToWASMValue parseFloatG s (("i64").data)
      = .ok (renderInt (simpleStringHash s)) := by
    unfold convertSecretToWASMValue
    rw [if_neg (by decide), if_pos rfl, h]
  have he32 : convertSecretToWASMValue parseFloatG s (("i32").data)
      = .ok (renderInt (simpleStringHash s)) := by
    unfold convertSecretToWASMValue
    rw [if_pos rfl, h32]
  exact ⟨he64, simpleStringHash_lb s, simpleStringHash_ub s, h32, by rw [he64, he32]⟩

/-- Witness for claim C9 at the non-numeric secret hello. -/
theorem i64_hash_sign_extended_witness :
    convertSecretToWASMValue (fun _ => none) (("hello").data) (("i64").data)
      = .ok (("99162322").data) ∧
    convertSecretToWASMValue (fun _ => none) (("hello").data) (("i64").data)
      = convertSecretToWASMValue (fun _ => none) (("hello").data) (("i32").data) := by
  have h := i64_hash_sign_extended (fun _ => none) (("hello").data) (by decide)
  exact ⟨by rw [h.1]; rfl, h.2.2.2.2⟩

/-! ## Claim C1: framing on the shared enclave channel -/

/-- Claim C1 evaluated on the code: forwardToEnclave holds only the shared
read half of the RWMutex, so both client tasks may be inside it at once
(readers = 2); in the permitted interleaving relayTrace both requests are
encoded before either response is decoded, the enclave serves request 1
first, and client 2 then decodes the response computed from request 1,
which differs from the response to its own request 2. The claim that
responses never correspond to a different request fails on this
schedule. -/
theorem relay_shared_channel_crosses_responses :
    (relayRun echoResp relayInit [.rlock1, .rlock2]).readers = 2 ∧
    (relayRun echoResp relayInit relayTrace).phase2 = .got (echoResp relayInit.req1) ∧
    echoResp relayInit.req1 ≠ echoResp relayInit.req2 :=
  ⟨by rfl, by rfl, by decide⟩

/-! ## Claim C3: channel state after an I/O error -/

/-- Claim C3 evaluated on the code: after an encode or decode I/O failure
on the established channel, forwardToEnclave returns the error but leaves
the state unchanged, with the connected flag still set; consequently the
next request performs no fresh connect attempt (connectToEnclave is a
no-op even when dialing would fail) and forwards on the same held
connection. This contradicts the claimed transition to Disconnected. -/
theorem io_error_leaves_channel_connected :
    forwardToEnclave hostConnectedState (.encodeFailure (("broken pipe").data))
      = (.error (("failed to send request to enclave: broken pipe").data),
         hostConnectedState) ∧
    forwardToEnclave hostConnectedState (.decodeFailure (("EOF").data))
      = (.error (("failed to decode WASM response from enclave: EOF").data),
         hostConnectedState) ∧
    hostConnectedState.enclaveConnected = true ∧
    connectToEnclave hostConnectedState (.failure (("enclave down").data))
      = (.ok (), hostConnectedState) ∧
    (handleOneClientRequest hostConnectedState (.failure (("enclave down").data))
        (.exchange { result := 3, error := [] })).2.enclaveConn = some 7 ∧
    (handleOneClientRequest hostConnectedState (.failure (("enclave down").data))
        (.exchange { result := 3, error := [] })).1 = { result := 3, error := [] } :=
  ⟨by rfl, by rfl, by rfl, by rfl, by rfl, by rfl⟩

/-! ## Claim C4: temporary paths of the compile step -/

/-- Claim C4 evaluated on the code: the temporary source and output paths
of compileWATToWASM are the fixed /tmp/temp.wat and /tmp/temp.wasm; two
distinct invocations (different indices, different WAT text) use the same
pair of paths, refuting the claim that the paths are uniquely named per
invocation. -/
theorem compile_temp_paths_constant :
    compileTempPaths 0 (("(module)").data) = compileTempPaths 1 (("(module (func))").data) ∧
    compileTempPaths 0 (("(module)").data)
      = ((("/tmp/temp.wat").data), (("/tmp/temp.wasm").data)) := by
  exact ⟨by rfl, by decide⟩

/-! ## Claim C10: binary decoding fallback and error propagation -/

/-- Claim C10: for every input not detected as WAT text, the executor
routes it through base64DecodeWASM, which first strips spaces, newlines
and tabs and attempts standard base64; the hex fallback is attempted only
when the cleaned string has even length, and when the cleaned string has
odd length or contains a non-hex pair the error returned is the original
base64 error, not a hex error. -/
theorem binary_decode_error_propagation (encoded : List Char)
    (hwat : isWATText encoded = false) :
    (∀ env fn args secrets,
      ExecuteWASM env encoded fn args secrets =
        match base64DecodeWASM encoded with
        | .error e =>
          (0, some ((("failed to decode WASM bytecode: ").data) ++ renderDecodeError e))
        | .ok wasmBytes => moduleStage env wasmBytes fn args) ∧
    (∀ bs, goBase64Decode (cleanedOf encoded) = .ok bs →
      base64DecodeWASM encoded = .ok bs) ∧
    (∀ e, goBase64Decode (cleanedOf encoded) = .error e →
      ((cleanedOf encoded).length % 2 ≠ 0 →
        base64DecodeWASM encoded = .error (.base64Corrupt e)) ∧
      ((cleanedOf encoded).length % 2 = 0 → hexDecodePairs (cleanedOf encoded) = none →
        base64DecodeWASM encoded = .error (.base64Corrupt e)) ∧
      (∀ hb, (cleanedOf encoded).length % 2 = 0 →
        hexDecodePairs (cleanedOf encoded) = some hb →
        base64DecodeWASM encoded = .ok hb)) := by
  refine ⟨?_, ?_, ?_⟩
  · intro env fn args secrets
    unfold ExecuteWASM
    rw [hwat]
    simp
  · intro bs h
    simp only [base64DecodeWASM]
    rw [h]
  · intro e h
    simp only [base64DecodeWASM]
    rw [h]
    dsimp only
    refine ⟨fun hodd => ?_, fun heven hnone => ?_, fun hb heven hsome => ?_⟩
    · rw [if_neg hodd]
    · rw [if_pos heven, hnone]
    · rw [if_pos heven, hsome]

/-- Witness for claim C10 at the whitespace-separated hex input. -/
theorem binary_decode_error_propagation_witness :
    isWATText w10Enc = false ∧
    goBase64Decode (cleanedOf w10Enc) = .error 8 ∧
    base64DecodeWASM w10Enc = .ok [104, 101, 108, 108, 111] ∧
    ExecuteWASM w8Env w10Enc (("f").data) [] []
      = moduleStage w8Env [104, 101, 108, 108, 111] (("f").data) [] := by
  have h := binary_decode_error_propagation w10Enc (by decide)
  have hdec : base64DecodeWASM w10Enc = .ok [104, 101, 108, 108, 111] :=
    (h.2.2 8 (by rfl)).2.2 _ (by decide) (by rfl)
  refine ⟨by decide, by rfl, hdec, ?_⟩
  rw [h.1 w8Env (("f").data) [] [], hdec]

/-! ## Lemmas on replaceFirst and the injection fold -/

theorem replaceFirstAux_spec (pat rep : List Char) (hpat : pat ≠ []) :
    ∀ s : List Char,
      (containsSubstr s pat = true →
        ∃ a b, s = a ++ pat ++ b ∧ replaceFirstAux pat rep s = a ++ rep ++ b ∧
          ∀ a2 b2, s = a2 ++ pat ++ b2 → a.length ≤ a2.length) ∧
      (containsSubstr s pat = false → replaceFirstAux pat rep s = s) := by
  intro s
  induction s with
  | nil =>
    constructor
    · intro h
      exfalso
      simp only [containsSubstr, List.isEmpty_iff] at h
      exact hpat h
    · intro _; rfl
  | cons c rest ih =>
    have hunf : containsSubstr (c :: rest) pat
        = (pat.isPrefixOf (c :: rest) || containsSubstr rest pat) := rfl
    constructor
    · intro h
      by_cases hp : pat.isPrefixOf (c :: rest) = true
      · have hpre : pat <+: c :: rest := List.isPrefixOf_iff_prefix.mp hp
        obtain ⟨b, hb⟩ := hpre
        refine ⟨[], b, by simpa using hb.symm, ?_, ?_⟩
        · show replaceFirstAux pat rep (c :: rest) = [] ++ rep ++ b
          unfold replaceFirstAux
          rw [if_pos hp, ← hb, List.drop_left]
          simp
        · intro a2 b2 _
          simp
      · have hc : containsSubstr rest pat = true := by
          rw [hunf] at h
          simpa [hp] using h
        obtain ⟨a, b, hsplit, hrepl, hmin⟩ := ih.1 hc
        refine ⟨c :: a, b, by simp [hsplit], ?_, ?_⟩
        · unfold replaceFirstAux
          rw [if_neg hp, hrepl]
          simp
        · intro a2 b2 h2
          cases a2 with
          | nil =>
            exfalso
            apply hp
            rw [List.isPrefixOf_iff_prefix]
            exact ⟨b2, by simpa using h2.symm⟩
          | cons c2 a2t =>
            have h3 : rest = a2t ++ pat ++ b2 := by
              have := h2
              simp only [List.cons_append] at this
              exact (List.cons.injEq c rest c2 (a2t ++ pat ++ b2)).mp this |>.2
            have := hmin a2t b2 h3
            simp only [List.length_cons]
            omega
    · intro h
      rw [hunf] at h
      have hp : pat.isPrefixOf (c :: rest) = false := by
        cases hq : pat.isPrefixOf (c :: rest) <;> simp [hq] at h ⊢
      have hr : containsSubstr rest pat = false := by
        cases hq : containsSubstr rest pat <;> simp [hq, hp] at h ⊢
      unfold replaceFirstAux
      rw [if_neg (by simp [hp]), ih.2 hr]

/-- With a nonempty pattern that occurs in s, replaceFirst splits s at the
first occurrence and substitutes exactly there. -/
theorem replaceFirst_first_occurrence (s pat rep : List Char) (hpat : pat ≠ [])
    (h : containsSubstr s pat = true) :
    ∃ a b, s = a ++ pat ++ b ∧ replaceFirst s pat rep = a ++ rep ++ b ∧
      ∀ a2 b2, s = a2 ++ pat ++ b2 → a.length ≤ a2.length := by
  have hspec := (replaceFirstAux_spec pat rep hpat s).1 h
  unfold replaceFirst
  rw [if_neg (by simp [List.isEmpty_iff, hpat])]
  exact hspec

/-- With a nonempty pattern that does not occur in s, replaceFirst leaves
s unchanged. -/
theorem replaceFirst_no_occurrence (s pat rep : List Char) (hpat : pat ≠ [])
    (h : containsSubstr s pat = false) : replaceFirst s pat rep = s := by
  have hspec := (replaceFirstAux_spec pat rep hpat s).2 h
  unfold replaceFirst
  rw [if_neg (by simp [List.isEmpty_iff, hpat])]
  exact hspec

/-- A match whose secret name has no entry triggers no replacement. -/
theorem injectStep_skip (pf : List Char → Option (List Char))
    (secrets : List (List Char × List Char)) (cur : List Char) (m : ImportMatch)
    (h : lookupSecret secrets m.secretName = none) :
    injectStep pf secrets cur m = .ok cur := by
  unfold injectStep
  rw [h]

/-- Folding the processing loop over matches none of which has a secret
entry returns the accumulator unchanged. -/
theorem foldlM_injectStep_skip_all (pf : List Char → Option (List Char))
    (secrets : List (List Char × List Char)) :
    ∀ (ms : List ImportMatch) (init : List Char),
      (∀ m ∈ ms, lookupSecret secrets m.secretName = none) →
      ms.foldlM (injectStep pf secrets) init = .ok init := by
  intro ms
  induction ms with
  | nil => intro init _; rfl
  | cons m rest ih =>
    intro init h
    rw [List.foldlM_cons, injectStep_skip pf secrets init m (h m (by simp))]
    show rest.foldlM (injectStep pf secrets) init = .ok init
    exact ih init (fun x hx => h x (by simp [hx]))

/-- The processing of one match consults the secrets mapping only at the
secret name of the match. -/
theorem injectStep_congr (pf : List Char → Option (List Char))
    (secrets secrets2 : List (List Char × List Char)) (cur : List Char)
    (m : ImportMatch)
    (h : lookupSecret secrets m.secretName = lookupSecret secrets2 m.secretName) :
    injectStep pf secrets cur m = injectStep pf secrets2 cur m := by
  unfold injectStep
  rw [h]

/-- The whole injection fold consults the secrets mapping only at the
secret names of the matches. -/
theorem foldlM_injectStep_congr (pf : List Char → Option (List Char))
    (secrets secrets2 : List (List Char × List Char)) :
    ∀ (ms : List ImportMatch) (init : List Char),
      (∀ m ∈ ms, lookupSecret secrets m.secretName = lookupSecret secrets2 m.secretName) →
      ms.foldlM (injectStep pf secrets) init = ms.foldlM (injectStep pf secrets2) init := by
  intro ms
  induction ms with
  | nil => intro init _; rfl
  | cons m rest ih =>
    intro init h
    rw [List.foldlM_cons, List.foldlM_cons,
      injectStep_congr pf secrets secrets2 init m (h m (by simp))]
    cases hstep : injectStep pf secrets2 init m with
    | error e => rfl
    | ok r =>
      show rest.foldlM (injectStep pf secrets) r = rest.foldlM (injectStep pf secrets2) r
      exact ih r (fun x hx => h x (by simp [hx]))

/-! ## Claim C6: first-occurrence textual replacement -/

/-- Claim C6 counterexample: in cexSource the first match is the
declaration cexT for secret N, which the secrets mapping provides (so the
declaration is consumed), yet the injection output cexOut still contains cexT
verbatim: substituting the second declaration rebuilt the text of the
first one, so a consumed placeholder import does not always disappear
from the output. -/
theorem consumed_import_reappears_cex :
    (findAllMatches cexSource).map ImportMatch.full = [cexT, cexM] ∧
    (findAllMatches cexSource).map ImportMatch.secretName
      = [(("N").data), (("X").data)] ∧
    lookupSecret cexSecrets (("N").data) = some (("7").data) ∧
    injectSecretsIntoWAT (fun _ => none) cexSource cexSecrets = .ok cexOut ∧
    containsSubstr cexOut cexT = true :=
  ⟨by rfl, by rfl, by rfl, by rfl, by rfl⟩

/-- Claim C6, amended: injection folds over the matches in order; each
consumed declaration is substituted by its inline global definition
(global $ident kind (kind.const literal)) at exactly the first remaining
occurrence of the matched substring (the text is unchanged if the
substring no longer occurs); since a substitution can rebuild the text of
another consumed declaration, a consumed placeholder import need not
disappear from the final output. -/
theorem inject_first_occurrence_amended (parseFloatG : List Char → Option (List Char))
    (watCode : List Char) (secrets : List (List Char × List Char)) :
    injectSecretsIntoWAT parseFloatG watCode secrets
      = (findAllMatches watCode).foldlM (injectStep parseFloatG secrets) watCode ∧
    ∀ (cur sv lit : List Char) (m : ImportMatch),
      lookupSecret secrets m.secretName = some sv →
      convertSecretToWASMValue parseFloatG sv m.wasmType = .ok lit →
      injectStep parseFloatG secrets cur m
        = .ok (replaceFirst cur m.full (globalDefFor m.globalName m.wasmType lit)) ∧
      (m.full ≠ [] →
        (containsSubstr cur m.full = false →
          replaceFirst cur m.full (globalDefFor m.globalName m.wasmType lit) = cur) ∧
        (containsSubstr cur m.full = true →
          ∃ a b, cur = a ++ m.full ++ b ∧
            replaceFirst cur m.full (globalDefFor m.globalName m.wasmType lit)
              = a ++ globalDefFor m.globalName m.wasmType lit ++ b ∧
            ∀ a2 b2, cur = a2 ++ m.full ++ b2 → a.length ≤ a2.length)) := by
  refine ⟨rfl, ?_⟩
  intro cur sv lit m hlook hconv
  refine ⟨?_, fun hne => ⟨?_, ?_⟩⟩
  · unfold injectStep
    rw [hlook]
    dsimp only
    rw [hconv]
  · intro hno
    exact replaceFirst_no_occurrence cur m.full _ hne hno
  · intro hyes
    exact replaceFirst_first_occurrence cur m.full _ hne hyes

/-- Witness for the amended claim C6: two identical consumed declarations
in a row; the step substitutes the inline global exactly at the first of
the two. -/
theorem inject_first_occurrence_amended_witness :
    injectStep (fun _ => none) wSecrets6 wCur6 wM6
      = .ok (replaceFirst wCur6 wM6.full wRep6) ∧
    (∃ a b, wCur6 = a ++ wM6.full ++ b ∧
      replaceFirst wCur6 wM6.full wRep6 = a ++ wRep6 ++ b ∧
      ∀ a2 b2, wCur6 = a2 ++ wM6.full ++ b2 → a.length ≤ a2.length) := by
  have h := (inject_first_occurrence_amended (fun _ => none) [] wSecrets6).2
    wCur6 (("5").data) (("5").data) wM6 (by rfl) (by rfl)
  exact ⟨h.1, (h.2 (by decide)).2 (by rfl)⟩

/-! ## Claim C7: untouched declarations, pass-through, unused secrets -/

/-- Claim C7 counterexample: in c7S the first match is the declaration
c7M whose secret name (a single space) has no entry in the secrets
mapping, so it must be left character-for-character untouched; but the
replacement for the consumed declaration c7T substitutes at the first
occurrence of its text, which begins inside c7M, and the injection
output no longer contains c7M at all. -/
theorem nonconsumed_import_destroyed_cex :
    (findAllMatches c7S).map ImportMatch.full = [c7M, c7T] ∧
    (findAllMatches c7S).map ImportMatch.secretName
      = [((" ").data), ((" (global $K i32))x").data)] ∧
    lookupSecret c7Secrets ((" ").data) = none ∧
    injectSecretsIntoWAT (fun _ => none) c7S c7Secrets = .ok c7Out ∧
    containsSubstr c7Out c7M = false :=
  ⟨by rfl, by rfl, by rfl, by rfl, by rfl⟩

/-- Claim C7, amended: a placeholder import whose name has no entry in the
secrets mapping triggers no replacement of its own (the processing step
returns its input unchanged); a source none of whose matches has a
secret entry passes through unchanged and injection succeeds (in
particular every source without placeholder imports does, vacuously);
and injection depends on the secrets mapping only through the names of
the matched declarations, so secret entries referenced by no declaration
have no effect and cause no error. (The replacement for a different,
consumed declaration substitutes at the first occurrence of its text
anywhere in the string, which can overlap a non-consumed declaration and
destroy it, as the counterexample shows, so a non-consumed declaration
is untouched in the output only in the absence of such overlaps.) -/
theorem inject_untouched_frame (parseFloatG : List Char → Option (List Char))
    (watCode : List Char) (secrets secrets2 : List (List Char × List Char)) :
    (∀ cur m, lookupSecret secrets m.secretName = none →
      injectStep parseFloatG secrets cur m = .ok cur) ∧
    ((∀ m ∈ findAllMatches watCode, lookupSecret secrets m.secretName = none) →
      injectSecretsIntoWAT parseFloatG watCode secrets = .ok watCode) ∧
    ((∀ m ∈ findAllMatches watCode,
        lookupSecret secrets m.secretName = lookupSecret secrets2 m.secretName) →
      injectSecretsIntoWAT parseFloatG watCode secrets
        = injectSecretsIntoWAT parseFloatG watCode secrets2) := by
  refine ⟨?_, ?_, ?_⟩
  · intro cur m h
    exact injectStep_skip parseFloatG secrets cur m h
  · intro h
    exact foldlM_injectStep_skip_all parseFloatG secrets (findAllMatches watCode) watCode h
  · intro h
    exact foldlM_injectStep_congr parseFloatG secrets secrets2 (findAllMatches watCode)
      watCode h

/-- Witness for claim C7: a source whose single declaration names secret
K, against a mapping providing only the unreferenced entry UNUSED;
injection succeeds and returns the source unchanged, and the unused
entry has no effect relative to the empty mapping. -/
theorem inject_untouched_frame_witness :
    injectStep (fun _ => none) w7Secrets w7Wat w7Match = .ok w7Wat ∧
    injectSecretsIntoWAT (fun _ => none) w7Wat w7Secrets = .ok w7Wat ∧
    injectSecretsIntoWAT (fun _ => none) w7Wat w7Secrets
      = injectSecretsIntoWAT (fun _ => none) w7Wat [] := by
  have h := inject_untouched_frame (fun _ => none) w7Wat w7Secrets []
  exact ⟨h.1 w7Wat w7Match (by rfl), h.2.1 (by decide), h.2.2 (by decide)⟩

/-! ## Lemmas on ExecuteWASM and the connection loop -/

/-- Every failure path of the module stages carries result 0. -/
theorem moduleStage_result_zero_or_success (env : ExecEnv) (wasmBytes : List Nat)
    (fn : List Char) (args : List Int) :
    (moduleStage env wasmBytes fn args).1 = 0 ∨
      (moduleStage env wasmBytes fn args).2 = none := by
  unfold moduleStage
  repeat' split
  all_goals simp

/-- Every failure path of ExecuteWASM carries result 0. -/
theorem executeWASM_result_zero_or_success (env : ExecEnv) (code fn : List Char)
    (args : List Int) (secrets : List (List Char × List Char)) :
    (ExecuteWASM env code fn args secrets).1 = 0 ∨
      (ExecuteWASM env code fn args secrets).2 = none := by
  unfold ExecuteWASM
  repeat' split
  all_goals first
    | simp
    | apply moduleStage_result_zero_or_success

/-- The responses of the connection loop pair up with a prefix of the
decodable requests, in order. -/
theorem handleLoop_fst_prefix (env : ExecEnv) (encodeOk : Nat → Bool) :
    ∀ (i : Nat) (reqs : List WASMRequest),
      List.IsPrefix ((handleLoop env encodeOk i reqs).map Prod.fst) reqs := by
  intro i reqs
  induction reqs generalizing i with
  | nil => simp [handleLoop]
  | cons req rest ih =>
    unfold handleLoop
    dsimp only
    cases h : encodeOk i with
    | true =>
      simp only [h, if_true, List.map_cons]
      exact (List.cons_prefix_cons).mpr ⟨rfl, ih (i + 1)⟩
    | false =>
      simp only [h, if_false, List.map_cons, List.map_nil]
      exact (List.cons_prefix_cons).mpr ⟨rfl, List.nil_prefix⟩

/-- Every pair produced by the connection loop carries the response built
from the execution outcome of its own request. -/
theorem handleLoop_mem (env : ExecEnv) (encodeOk : Nat → Bool) :
    ∀ (i : Nat) (reqs : List WASMRequest) (p : WASMRequest × WASMResponse),
      p ∈ handleLoop env encodeOk i reqs →
      p.2 = responseFor
        (ExecuteWASM env p.1.wasmCode p.1.functionName p.1.args p.1.secrets) := by
  intro i reqs
  induction reqs generalizing i with
  | nil => intro p hp; simp [handleLoop] at hp
  | cons req rest ih =>
    intro p hp
    unfold handleLoop at hp
    dsimp only at hp
    rcases List.mem_cons.mp hp with heq | htail
    · subst heq; rfl
    · cases h : encodeOk i with
      | true =>
        rw [h] at htail
        simp only [if_true] at htail
        exact ih (i + 1) p htail
      | false =>
        rw [h] at htail
        simp at htail

/-- The response constructor: empty error exactly on success, non-empty
prefixed error message on failure, result passed through. -/
theorem responseFor_spec (outcome : Int × Option (List Char)) :
    ((responseFor outcome).error = [] ↔ outcome.2 = none) ∧
    (outcome.2 ≠ none → (responseFor outcome).error ≠ []) ∧
    (responseFor outcome).result = outcome.1 := by
  unfold responseFor
  rcases outcome with ⟨r, e⟩
  cases e <;> simp

/-! ## Claim C8: one response per request, error discipline -/

/-- Claim C8: the connection loop of the enclave executor pairs every
decoded request, in order, with exactly one response; the error field of
that response is empty if and only if execution succeeded, and whenever
execution fails the response carries result 0 together with a non-empty
error. -/
theorem one_response_per_request (env : ExecEnv) (encodeOk : Nat → Bool)
    (reqs : List WASMRequest) :
    List.IsPrefix ((handleConnection env encodeOk reqs).map Prod.fst) reqs ∧
    ∀ p ∈ handleConnection env encodeOk reqs,
      p.2 = responseFor
        (ExecuteWASM env p.1.wasmCode p.1.functionName p.1.args p.1.secrets) ∧
      (p.2.error = []
        ↔ (ExecuteWASM env p.1.wasmCode p.1.functionName p.1.args p.1.secrets).2 = none) ∧
      ((ExecuteWASM env p.1.wasmCode p.1.functionName p.1.args p.1.secrets).2 ≠ none →
        p.2.result = 0 ∧ p.2.error ≠ []) := by
  constructor
  · exact handleLoop_fst_prefix env encodeOk 0 reqs
  · intro p hp
    have hresp := handleLoop_mem env encodeOk 0 reqs p hp
    refine ⟨hresp, ?_, ?_⟩
    · rw [hresp]
      exact (responseFor_spec _).1
    · intro hne
      constructor
      · rw [hresp, (responseFor_spec _).2.2]
        rcases executeWASM_result_zero_or_success env p.1.wasmCode p.1.functionName
          p.1.args p.1.secrets with h0 | hnone
        · exact h0
        · exact absurd hnone hne
      · rw [hresp]
        exact (responseFor_spec _).2.1 hne

/-- Witness for claim C8: a request for a missing function yields exactly
one response, with result 0 and a non-empty error. -/
theorem one_response_per_request_witness :
    handleConnection w8Env (fun _ => true) [w8Req] = [(w8Req, w8Resp)] ∧
    w8Resp.result = 0 ∧ w8Resp.error ≠ [] := by
  have h := (one_response_per_request w8Env (fun _ => true) [w8Req]).2
    (w8Req, w8Resp) (by decide)
  have h2 := h.2.2 (by decide)
  exact ⟨by rfl, h2.1, h2.2⟩

end HelloWasmNitro
